import Mathlib

/-!
# Verification of the Relax ONNX frontend importer
  (`python/tvm/relax/frontend/onnx_frontend.py`)

A shallow embedding of the importer's data model and operations, together
with theorems settling the behavioural claims about it.  Python dicts are
modelled as insertion-ordered association lists with overwrite-on-assign
semantics, Python exceptions as `Except`, and the stateful importer object
as explicit state passing.
-/

set_option linter.unusedVariables false

namespace OnnxFrontend

/-! ## Version resolver: `OnnxOpConverter.get_converter`

The Python source collects the version numbers of all declared `_impl_vN`
class methods, appends the requested opset, sorts, takes the largest index
holding the opset, steps one position back (Python negative indexing wraps
to the end of the list), and returns the `_impl_vN` method for the version
found there if it exists. -/

/-- Python list indexing `l[i]`: negative indices count from the end;
an index out of range on either side yields `none` (IndexError). -/
def pyGet (l : List Nat) (i : Int) : Option Nat :=
  if 0 ≤ i then l[i.toNat]?
  else if 0 ≤ (l.length : Int) + i then l[((l.length : Int) + i).toNat]?
  else none

/-- `versions = sorted(versions + [opset])` where `versions` starts as the
declared `_impl_v` thresholds of the converter class. -/
def implVersions (thresholds : List Nat) (opset : Nat) : List Nat :=
  List.insertionSort (· ≤ ·) (thresholds ++ [opset])

/-- `[i for i, v in enumerate(versions) if v == opset]`. -/
def opsetIndices (versions : List Nat) (opset : Nat) : List Nat :=
  (versions.enum.filter (fun p => p.2 == opset)).map Prod.fst

/-- Python `max` over a list of naturals (the call sites only apply it to
nonempty lists, where the `0` seed is irrelevant). -/
def pyListMax (l : List Nat) : Nat := l.foldl max 0

/-- `OnnxOpConverter.get_converter`, returning the version number of the
selected `_impl_vN` variant, or `none` for the `NotImplementedError` path.
The final membership test embeds `hasattr(cls, "_impl_v" + version)`. -/
def get_converter (thresholds : List Nat) (opset : Nat) : Option Nat :=
  match pyGet (implVersions thresholds opset)
      ((pyListMax (opsetIndices (implVersions thresholds opset) opset) : Int) - 1) with
  | none => none
  | some version => if version ∈ thresholds then some version else none

/-! ## Data model

Python dicts are insertion-ordered maps with overwrite-on-assign; Python
exceptions become `Except ImpError`.  Tensor payloads are abstracted to
integer lists (no claim computes with floating-point data); float scalars
are carried as opaque `Int` payloads for the same reason. -/

/-- The Python exceptions raised by the importer. -/
inductive ImpError where
  | valueError (msg : String)
  | typeError (msg : String)
  | indexError (msg : String)
  | keyError (key : String)
  | assertionError (msg : String)
  | notImplementedError (msg : String)
  | opNotImplemented (msg : String)
deriving DecidableEq, Repr

/-- An ONNX `TensorProto` (name, dtype, dims, payload). -/
structure TensorP where
  name : String
  dtype : String
  dims : List Nat
  data : List Int
deriving DecidableEq, Repr, Inhabited

/-- A nested-subgraph attribute payload.  The importer never looks inside a
subgraph (it either stores it or rejects it), so it is opaque here. -/
structure SubgraphStub where
  id : Nat
deriving DecidableEq, Repr, Inhabited

/-- A Relax expression as far as the importer observes it: a constant
(`relax.Constant` with payload), a free variable (`testing.nn.Parameter`),
a `relax.Tuple`, or an opaque value emitted through `bb.emit_te`/`bb.emit`
(only the scalar-list arguments passed to the kernel are recorded; tensor
arguments and shape inference are external to this file). -/
inductive RValue where
  | const (dtype : String) (dims : List Nat) (data : List Int)
  | var (name : String) (dims : List Nat) (dtype : String)
  | tupleV (items : List RValue)
  | emitted (op : String) (args : List (List Int))
deriving Inhabited

/-- One parsed attribute value (`_parse_attr` map entries).  `attrCustom` is
the synthetic `tvm_custom` bookkeeping entry
(`node name`, `declared output count`). -/
inductive AttrValue where
  | attrF (v : Int)
  | attrI (v : Int)
  | attrS (v : List Nat)
  | attrG (g : SubgraphStub)
  | attrFloats (v : List Int)
  | attrInts (v : List Int)
  | attrStrings (v : List (List Nat))
  | attrT (t : TensorP)
  | attrTensors (v : List TensorP)
  | attrCustom (nodeName : String) (numOutputs : Nat)
deriving DecidableEq, Repr

/-- An ONNX `AttributeProto`: singular slots are optional, repeated slots
are lists (empty = unpopulated), mirroring protobuf `HasField` and
repeated-field truthiness. -/
structure AttributeProto where
  name : String
  f : Option Int
  i : Option Int
  s : Option (List Nat)
  g : Option SubgraphStub
  floats : List Int
  ints : List Int
  strings : List (List Nat)
  t : Option TensorP
  tensors : List TensorP
  graphs : List SubgraphStub
deriving DecidableEq, Repr

/-- Python `str.strip()` (`String.trim` is not used because its
position-based recursion does not reduce inside the kernel). -/
def pyStrip (s : String) : String :=
  ⟨((s.data.dropWhile Char.isWhitespace).reverse.dropWhile
      Char.isWhitespace).reverse⟩

/-- Python `name.replace(".", "_")` — a single-character pattern, hence a
per-character map. -/
def pyReplaceDot (s : String) : String :=
  ⟨s.data.map (fun c => if c = '.' then '_' else c)⟩

/-! ### Python dict semantics -/

/-- Python `m[k]` (first — and, for dicts, only — entry wins). -/
def dictGet {β : Type} : List (String × β) → String → Option β
  | [], _ => none
  | p :: rest, k => if p.1 == k then some p.2 else dictGet rest k

def dictContains {β : Type} (m : List (String × β)) (k : String) : Bool :=
  (dictGet m k).isSome

/-- Python `m[k] = v`: a bound key is updated in place (keys are unique in
any list built by assignment, so updating the first occurrence is the dict
semantics), an unbound key is appended at the end. -/
def dictSet {β : Type} : List (String × β) → String → β → List (String × β)
  | [], k, v => [(k, v)]
  | p :: rest, k, v =>
    if p.1 == k then (k, v) :: rest else p :: dictSet rest k v

abbrev AttrMap := List (String × AttrValue)

/-! ### `onnx_input.__getitem__`

`class onnx_input(list)` overrides integer indexing so that an index at or
past the end of the list yields `None` instead of raising; indices below
`-len` still raise `IndexError` (via `list(self)[item]`).  Elements are
`Option RValue` because the input list itself stores `None` for blank input
names; slice indexing is not needed by any claim and is omitted. -/
def onnx_input_getitem {α : Type} (l : List (Option α)) (item : Int) :
    Except ImpError (Option α) :=
  if item < (l.length : Int) then
    if 0 ≤ item then
      match l[item.toNat]? with
      | some v => .ok v
      | none => .error (.indexError "list index out of range")
    else if 0 ≤ (l.length : Int) + item then
      match l[((l.length : Int) + item).toNat]? with
      | some v => .ok v
      | none => .error (.indexError "list index out of range")
    else .error (.indexError "list index out of range")
  else .ok none

/-! ### `ONNXGraphImporter._parse_attr` -/

/-- Processing of a single `AttributeProto` into the attribute dict,
mirroring the source loop body exactly: the four singular slots `f, i, s, g`
are copied unconditionally (overwriting), the repeated slots `floats, ints,
strings` and `tensors` assert that the name is still unbound, the singular
`t` slot again copies unconditionally, a populated `graphs` slot raises
`NotImplementedError`, and a name that ended up with no entry raises
`ValueError`. -/
def parseAttrOne (attrs : AttrMap) (a : AttributeProto) :
    Except ImpError AttrMap := do
  let m1 := match a.f with | some v => dictSet attrs a.name (.attrF v) | none => attrs
  let m2 := match a.i with | some v => dictSet m1 a.name (.attrI v) | none => m1
  let m3 := match a.s with | some v => dictSet m2 a.name (.attrS v) | none => m2
  let m4 := match a.g with | some v => dictSet m3 a.name (.attrG v) | none => m3
  let m5 ← if a.floats.isEmpty then pure m4
    else if dictContains m4 a.name then
      throw (.assertionError "Only one type of attr is allowed")
    else pure (dictSet m4 a.name (.attrFloats a.floats))
  let m6 ← if a.ints.isEmpty then pure m5
    else if dictContains m5 a.name then
      throw (.assertionError "Only one type of attr is allowed")
    else pure (dictSet m5 a.name (.attrInts a.ints))
  let m7 ← if a.strings.isEmpty then pure m6
    else if dictContains m6 a.name then
      throw (.assertionError "Only one type of attr is allowed")
    else pure (dictSet m6 a.name (.attrStrings a.strings))
  let m8 := match a.t with | some v => dictSet m7 a.name (.attrT v) | none => m7
  let m9 ← if a.tensors.isEmpty then pure m8
    else if dictContains m8 a.name then
      throw (.assertionError "Only one type of attr is allowed")
    else pure (dictSet m8 a.name (.attrTensors a.tensors))
  if a.graphs.isEmpty then
    if dictContains m9 a.name then pure m9
    else throw (.valueError "Cannot parse attribute")
  else throw (.notImplementedError "Field graphs is not supported in relax.")

def parseAttrLoop : AttrMap → List AttributeProto → Except ImpError AttrMap
  | m, [] => .ok m
  | m, a :: rest => do parseAttrLoop (← parseAttrOne m a) rest

def parseAttr (l : List AttributeProto) : Except ImpError AttrMap :=
  parseAttrLoop [] l

/-! ### Converters needing compile-time constants, and `Constant` -/

/-- `isinstance(v, relax.Constant)` on a node-input slot. -/
def isConstV : Option RValue → Bool
  | some (.const _ _ _) => true
  | _ => false

/-- `isinstance(param, relax.Constant) or param is None`. -/
def isConstOrNoneV : Option RValue → Bool
  | none => true
  | some (.const _ _ _) => true
  | _ => false

/-- `data.struct_info.shape.values` on the values this file models; shapes
of `emitted` values are computed by the external normalizer and are outside
this embedding. -/
def structShapeValues : Option RValue → Except ImpError (List Nat)
  | some (.const _ dims _) => .ok dims
  | some (.var _ dims _) => .ok dims
  | some (.emitted _ _) =>
      .error (.typeError "shape of an emitted value is external to this model")
  | some (.tupleV _) => .error (.typeError "tuple has no tensor shape")
  | none => .error (.typeError "NoneType has no attribute struct_info")

/-- `v.data.numpy().tolist()` where `v` must be a `relax.Constant`. -/
def tolistOfConst : Option RValue → Except ImpError (List Int)
  | some (.const _ _ d) => .ok d
  | _ => .error (.typeError "value has no constant data")

/-- `Constant._impl_v13`: a missing `value` attribute raises; a bytes-typed
value (the `s` slot) silently becomes the int64 array `[0]`; a tensor value
is materialized as a constant. -/
def Constant_impl_v13 (attr : AttrMap) : Except ImpError RValue :=
  match dictGet attr "value" with
  | none => .error (.valueError "no value in Constant")
  | some v =>
    match v with
    | .attrS _ => .ok (.const "int64" [1] [0])
    | .attrT t => .ok (.const t.dtype t.dims t.data)
    | _ => .error (.typeError "get_numpy expects a TensorProto")

/-- `Reshape._impl_v13`: if the shape input is not a `relax.Constant` the
converter RETURNS THE DATA INPUT UNCHANGED (it does not raise); otherwise a
single `-1` dim is replaced by the remaining extent and the reshape is
emitted. -/
def Reshape_impl_v13 (inputs : List (Option RValue)) (attr : AttrMap) :
    Except ImpError (Option RValue) := do
  let data ← onnx_input_getitem inputs 0
  let shapeIn ← onnx_input_getitem inputs 1
  match shapeIn with
  | some (.const _ _ payload) =>
    let newShape := payload
    if (-1 : Int) ∈ newShape then
      if newShape.count (-1) ≠ 1 then
        throw (.valueError "Reshape with multiple -1 is not supported.")
      else do
        let dataShape ← structShapeValues data
        let totalElements : Int := ((dataShape.foldl (· * ·) 1 : Nat) : Int)
        let newProduct : Int :=
          newShape.foldl (fun acc d => if d > 0 then acc * d else acc) 1
        let replaced :=
          newShape.map (fun d => if d = -1 then totalElements / newProduct else d)
        pure (some (.emitted "topi.reshape" [replaced]))
    else
      pure (some (.emitted "topi.reshape" [newShape]))
  | _ => pure data

/-- `Tile._impl_v13`: non-constant repeat counts raise `ValueError`. -/
def Tile_impl_v13 (inputs : List (Option RValue)) (attr : AttrMap) :
    Except ImpError (Option RValue) := do
  let reps ← onnx_input_getitem inputs 1
  match reps with
  | some (.const _ _ d) => do
    let _dataIn ← onnx_input_getitem inputs 0
    pure (some (.emitted "topi.tile" [d]))
  | _ => throw (.valueError "Dynamic reps for Tile are supported yet.")

/-- `Slice._impl_v13`: every one of starts/ends/axes/steps must be a
`relax.Constant` or absent, else `ValueError`; absent axes default to
`range(len(starts))` and absent steps to ones. -/
def Slice_impl_v13 (inputs : List (Option RValue)) (attr : AttrMap) :
    Except ImpError (Option RValue) := do
  let _data ← onnx_input_getitem inputs 0
  let starts ← onnx_input_getitem inputs 1
  let ends ← onnx_input_getitem inputs 2
  let axes ← onnx_input_getitem inputs 3
  let steps ← onnx_input_getitem inputs 4
  if ([starts, ends, axes, steps].all isConstOrNoneV) then do
    let startsL ← tolistOfConst starts
    let _endsL ← tolistOfConst ends
    let axesL ← match axes with
      | some (.const _ _ d) => pure d
      | none => pure ((List.range startsL.length).map (fun n => (n : Int)))
      | _ => throw (.typeError "value has no constant data")
    let stepsL ← match steps with
      | some (.const _ _ d) => pure d
      | none => pure (List.replicate axesL.length (1 : Int))
      | _ => throw (.typeError "value has no constant data")
    pure (some (.emitted "topi.strided_slice" [startsL, _endsL, stepsL, axesL]))
  else throw (.valueError "Only constant Slice parameters are currently supported.")

/-! ## Graph-level structures -/

structure ValueInfo where
  name : String
  dims : List Nat
  dtype : String
deriving DecidableEq, Repr, Inhabited

structure NodeProto where
  name : String
  op_type : String
  input : List String
  output : List String
  attrProtos : List AttributeProto
deriving DecidableEq, Repr, Inhabited

/-- `GraphProto`; `initTensors` is the `graph.initializer` field, and
`get_info`/`get_type` (protobuf field extraction and dtype mapping) are
absorbed into the `ValueInfo` record fields. -/
structure GraphProto where
  node : List NodeProto
  input : List ValueInfo
  output : List ValueInfo
  initTensors : List TensorP
deriving DecidableEq, Repr, Inhabited

structure OpsetId where
  domain : String
  version : Nat
deriving DecidableEq, Repr, Inhabited

structure ModelProto where
  ir_version : Int
  opset_import : List OpsetId
  graph : GraphProto
deriving DecidableEq, Repr, Inhabited

/-- The `dtype` entry-point argument: one datatype string, or a per-input
mapping. -/
inductive DtypeSpec where
  | str (s : String)
  | dict (m : List (String × String))
deriving DecidableEq, Repr, Inhabited

structure ImporterCfg where
  shape : List (String × List Nat)
  dtype : DtypeSpec
  sanitize : Bool

/-- The key set of `_get_convert_map()`, transcribed from the source. -/
def convertMapKeys : List String :=
  ["MatMul", "Concat", "Add", "Mul", "Cast", "Gather", "Gemm", "Reshape",
   "Div", "Sigmoid", "Softmax", "Transpose", "Unsqueeze", "Gelu", "BiasGelu",
   "Where", "Clip", "Equal", "Shape", "Not", "Tanh", "Sqrt", "Relu", "Conv",
   "Pow", "Erf", "CumSum", "Squeeze", "Constant", "Sub", "Sin", "Cos", "Neg",
   "Abs", "Min", "Max", "Log", "Less", "LessOrEqual", "LayerNormalization",
   "SkipLayerNormalization", "EmbedLayerNormalization",
   "InstanceNormalization", "ReduceMax", "ReduceMin", "ReduceSum",
   "ReduceMean", "ReduceProd", "ReduceLogSumExp", "ReduceLogSum",
   "ReduceSumSquare", "ReduceL1", "ReduceL2", "Expand", "ConstantOfShape",
   "Slice", "Attention", "Pad", "Split", "Tile", "BatchNormalization",
   "GlobalAveragePool", "Flatten", "MaxPool", "Identity", "Resize", "Einsum",
   "Range"]

/-! ## Name supply and `_sanitize_name` -/

/-- Modelled from the spec: `tvm.ir.supply.NameSupply` is external to this
file (`from tvm.ir.supply import NameSupply`).  The spec describes it as an
incrementing suffix supply with empty input names mapped to `empty_0`,
`empty_1`, ... on successive occurrences, which also matches the source
docstring of `_sanitize_name`; accordingly `fresh_name` appends the next
per-prefix counter value, starting at 0. -/
def freshName (supply : List (String × Nat)) (pfx : String) :
    String × List (String × Nat) :=
  let n := (dictGet supply pfx).getD 0
  (pfx ++ toString n, dictSet supply pfx (n + 1))

/-- `ONNXGraphImporter._sanitize_name` (the Unicode `str.isalpha` test is
rendered with the ASCII `Char.isAlpha`; no claim touches non-ASCII names). -/
def sanitizeName (supply : List (String × Nat)) (name : String) :
    String × List (String × Nat) :=
  if name = "" then freshName supply "empty_"
  else
    let newName := pyReplaceDot name
    let c0 := newName.data.headD ' '
    if ¬ c0.isAlpha ∧ c0 ≠ '_' then freshName supply ("input_" ++ newName)
    else freshName supply newName

/-! ## Importer state and phases -/

/-- The mutable fields of `ONNXGraphImporter` that the claims observe;
`trace` is a ghost field recording the `op_type` of every node whose
converter was invoked, used to state that no conversion happened. -/
structure ImpState where
  nodes : List (String × RValue)
  inputs : List (String × RValue)
  numInput : Nat
  inputNames : List String
  supply : List (String × Nat)
  trace : List String
deriving Inhabited

def initialState : ImpState := ⟨[], [], 0, [], [], []⟩

/-- `_parse_graph_initializers`: blank (whitespace-only) tensor names raise
`ValueError`; otherwise `_nodes[name] = relax.const(array)`.  Errors carry
the state at raise time to express the all-or-nothing behaviour. -/
def initLoop : List TensorP → ImpState → Except (ImpError × ImpState) ImpState
  | [], st => .ok st
  | tns :: rest, st =>
    if pyStrip tns.name = "" then
      .error (.valueError "Tensor name is required.", st)
    else
      initLoop rest
        { st with nodes := dictSet st.nodes tns.name (.const tns.dtype tns.dims tns.data) }

/-- `_parse_graph_input`: each declared input is bound at most once per
name (a name already present in `_nodes` — an initializer or an earlier
input of the same name — is reused), with shape/dtype overrides applied and
the variable name passed through `_sanitize_name` when enabled. -/
def inputLoop (cfg : ImporterCfg) : List ValueInfo → ImpState → ImpState
  | [], st => st
  | vi :: rest, st =>
    let iName := vi.name
    let st1 :=
      if dictContains st.nodes iName then st
      else
        let iShape := (dictGet cfg.shape iName).getD vi.dims
        let dtype := match cfg.dtype with
          | .dict m => (dictGet m iName).getD vi.dtype
          | .str _ => vi.dtype
        let sanitized :=
          if cfg.sanitize then sanitizeName st.supply iName else (iName, st.supply)
        { st with
          numInput := st.numInput + 1,
          inputNames := st.inputNames ++ [iName],
          supply := sanitized.2,
          nodes := dictSet st.nodes iName (.var sanitized.1 iShape dtype) }
    let v := (dictGet st1.nodes iName).getD default
    inputLoop cfg rest { st1 with inputs := dictSet st1.inputs iName v }

/-- One step of collecting `_check_for_unsupported_ops`: add the operator
name if it is outside the convert map, not `Constant`, and not yet
collected (insertion-ordered dedup stands in for the Python set). -/
def unsupStep (acc : List String) (n : NodeProto) : List String :=
  if n.op_type ∉ convertMapKeys ∧ n.op_type ≠ "Constant" ∧ n.op_type ∉ acc
  then acc ++ [n.op_type] else acc

/-- `_check_for_unsupported_ops`: the operator names outside the convert
map. -/
def unsupportedOps (g : GraphProto) : List String :=
  g.node.foldl unsupStep []

def joinComma : List String → String
  | [] => ""
  | [s] => s
  | s :: rest => s ++ ", " ++ joinComma rest

def unsupportedMsg (g : GraphProto) : String :=
  "The following operators are not supported for frontend ONNX: " ++
    joinComma (unsupportedOps g)

def checkForUnsupportedOps (g : GraphProto) (st : ImpState) :
    Except (ImpError × ImpState) ImpState :=
  if unsupportedOps g = [] then .ok st
  else .error (.opNotImplemented (unsupportedMsg g), st)

/-- The input-list construction in `_construct_nodes`: a blank input name
contributes `None` with no symbol-table lookup; any other name is looked up
in `_nodes` (`KeyError` on a topological-order violation). -/
def buildInputs (nodes : List (String × RValue)) :
    List String → Except ImpError (List (Option RValue))
  | [] => .ok []
  | i :: rest =>
    if i ≠ "" then
      match dictGet nodes i with
      | some v =>
        match buildInputs nodes rest with
        | .ok tail => .ok (some v :: tail)
        | .error e => .error e
      | none => .error (.keyError i)
    else
      match buildInputs nodes rest with
      | .ok tail => .ok (none :: tail)
      | .error e => .error e

/-- A converter invocation: the dispatch through
`convert_class.get_converter(opset)` (and the Relay bridge for bridged
entries) applied to the node inputs and attributes.  The individual
converter bodies are verified separately (`get_converter`,
`Reshape_impl_v13`, ...); the pipeline claims hold for every oracle. -/
def ConvertOracle : Type :=
  String → List (Option RValue) → AttrMap → Nat → Except ImpError RValue

/-- `_convert_operator`: unknown operators raise `NotImplementedError`. -/
def convertOperator (oracle : ConvertOracle) (opName : String)
    (inputs : List (Option RValue)) (attrs : AttrMap) (opset : Nat) :
    Except ImpError RValue :=
  if opName ∈ convertMapKeys then oracle opName inputs attrs opset
  else .error (.notImplementedError ("Operator " ++ opName ++ " not implemented."))

/-- `for k, i in zip(list(outputs), range(len(outputs))): _nodes[k] = op[i]`. -/
def bindOutputs (nodes : List (String × RValue)) (outputs : List String)
    (items : List RValue) : List (String × RValue) :=
  (outputs.zip items).foldl (fun acc p => dictSet acc p.1 p.2) nodes

/-- One iteration of the `_construct_nodes` loop.  `bb.normalize` is the
external type normalizer and acts as the identity on the modelled values; a
converter result that is a `relax.Tuple` is already represented as
`.tupleV`, covering both the direct-tuple and unpacked tuple-typed-var
cases of the source. -/
def constructNode (oracle : ConvertOracle) (opset : Nat) (node : NodeProto)
    (st : ImpState) : Except (ImpError × ImpState) ImpState :=
  match parseAttr node.attrProtos with
  | .error e => .error (e, st)
  | .ok attr =>
    match buildInputs st.nodes node.input with
    | .error e => .error (e, st)
    | .ok inputs =>
      let outputs := node.output
      let attr2 := dictSet attr "tvm_custom" (.attrCustom node.name outputs.length)
      match convertOperator oracle node.op_type inputs attr2 opset with
      | .error e => .error (e, st)
      | .ok op =>
        let st2 := { st with trace := st.trace ++ [node.op_type] }
        let opsNum := match op with
          | .tupleV items => items.length
          | _ => 1
        if outputs.length ≤ opsNum then
          if opsNum = 1 then
            match outputs with
            | o :: _ => .ok { st2 with nodes := dictSet st2.nodes o op }
            | [] => .error (.indexError "list index out of range", st2)
          else
            match op with
            | .tupleV items =>
                .ok { st2 with nodes := bindOutputs st2.nodes outputs items }
            | _ => .error (.typeError "expected a tuple result", st2)
        else .error (.assertionError "Missing outputs during conversion.", st2)

def constructLoop (oracle : ConvertOracle) (opset : Nat) :
    List NodeProto → ImpState → Except (ImpError × ImpState) ImpState
  | [], st => .ok st
  | n :: rest, st =>
    match constructNode oracle opset n st with
    | .error e => .error e
    | .ok st2 => constructLoop oracle opset rest st2

/-- The single-function program assembled by the block builder: its
parameter list and output expression (the bindings along the way live in
the external builder). -/
structure Module where
  params : List RValue
  output : RValue

/-- The value returned by the entry point.  `pair` is the shape promised by
the signature `-> Tuple[IRModule, Dict]` and the docstring (`mod, params`);
the implementation only ever builds `module` (`return self.bb.get()`). -/
inductive PyRet where
  | module (m : Module)
  | pair (m : Module) (params : List (String × TensorP))

def isVarV : RValue → Bool
  | .var _ _ _ => true
  | _ => false

/-- Discriminates the spec-promised `(mod, params)` pair from the module
that the code actually returns. -/
def retIsPair : PyRet → Bool
  | .pair _ _ => true
  | .module _ => false

def collectOutputs (nodes : List (String × RValue)) :
    List ValueInfo → Except ImpError (List RValue)
  | [] => .ok []
  | vi :: rest =>
    match dictGet nodes vi.name with
    | some v => do pure (v :: (← collectOutputs nodes rest))
    | none => .error (.keyError vi.name)

/-- The tail of `ONNXGraphImporter.from_onnx`: look up the graph outputs,
tuple them if several, collect the `relax.Var` inputs as the parameter
list, and return `self.bb.get()` — the module alone. -/
def finalize (g : GraphProto) (st : ImpState) :
    Except (ImpError × ImpState) (PyRet × ImpState) :=
  match collectOutputs st.nodes g.output with
  | .error e => .error (e, st)
  | .ok outs =>
    let outExpr := match outs with
      | [o] => o
      | os => RValue.tupleV os
    let paramList := (st.inputs.map Prod.snd).filter isVarV
    .ok (.module ⟨paramList, outExpr⟩, st)

/-- The two phases that run before `_check_for_unsupported_ops`. -/
def preNodePhases (cfg : ImporterCfg) (g : GraphProto) :
    Except (ImpError × ImpState) ImpState :=
  match initLoop g.initTensors initialState with
  | .error e => .error e
  | .ok st1 => .ok (inputLoop cfg g.input st1)

/-- `ONNXGraphImporter.from_onnx`: initializers, inputs, unsupported-op
check, node construction, finalization — in that order, all-or-nothing. -/
def fromOnnxImporter (oracle : ConvertOracle) (cfg : ImporterCfg)
    (g : GraphProto) (opset : Nat) :
    Except (ImpError × ImpState) (PyRet × ImpState) :=
  match preNodePhases cfg g with
  | .error e => .error e
  | .ok st2 =>
    match checkForUnsupportedOps g st2 with
    | .error e => .error e
    | .ok st2b =>
      match constructLoop oracle opset g.node st2b with
      | .error e => .error e
      | .ok st3 => finalize g st3

/-- The default-domain opset declared by the model (1 if absent). -/
def getOpsetInModel (model : ModelProto) : Nat :=
  match model.opset_import.find?
      (fun oid => oid.domain == "ai.onnx" || oid.domain == "") with
  | some oid => oid.version
  | none => 1

/-- The module-level `from_onnx` entry point: rejects `ir_version < 3`,
resolves the opset (an explicit request below the model opset only warns),
and delegates to the importer.  The compilation `target` and the advisory
`onnx.checker` call are external and have no modelled effect. -/
def from_onnx_top (oracle : ConvertOracle) (model : ModelProto)
    (shape : List (String × List Nat)) (dtype : DtypeSpec)
    (opsetArg : Option Nat) (sanitize_input_names : Bool) :
    Except (ImpError × Option ImpState) (PyRet × ImpState) :=
  if model.ir_version < 3 then
    .error (.valueError "Model IR version not supported.", none)
  else
    let opset := match opsetArg with
      | none => getOpsetInModel model
      | some o => o
    match fromOnnxImporter oracle
        ⟨shape, dtype, sanitize_input_names⟩ model.graph opset with
    | .error (e, st) => .error (e, some st)
    | .ok r => .ok r

/-- `Identity._impl_v1` (`return inputs[0]`), used as a concrete converter
oracle for closed-instance theorems. -/
def identityOracle : ConvertOracle := fun _ inputs _ _ =>
  match onnx_input_getitem inputs 0 with
  | .ok (some v) => .ok v
  | .ok none => .error (.typeError "unexpected None input")
  | .error e => .error e

/-! ### Facts about the resolver -/

theorem mem_opsetIndices {V : List Nat} {x i : Nat} :
    i ∈ opsetIndices V x ↔ V[i]? = some x := by
  unfold opsetIndices
  constructor
  · rintro h
    rcases List.mem_map.1 h with ⟨p, hp, rfl⟩
    rcases List.mem_filter.1 hp with ⟨henum, hbeq⟩
    have hpx : p.2 = x := by simpa using hbeq
    have : (p.1, p.2) ∈ V.enum := by simpa using henum
    rw [List.mk_mem_enum_iff_getElem?] at this
    simpa [hpx] using this
  · intro h
    refine List.mem_map.2 ⟨(i, x), List.mem_filter.2 ⟨?_, by simp⟩, rfl⟩
    exact List.mk_mem_enum_iff_getElem?.2 h

theorem foldl_max_le {l : List Nat} {b n : Nat} (hb : b ≤ n)
    (h : ∀ a ∈ l, a ≤ n) : l.foldl max b ≤ n := by
  induction l generalizing b with
  | nil => simpa using hb
  | cons x xs ih =>
    simp only [List.foldl_cons]
    exact ih (max_le hb (h x (by simp))) (fun a ha => h a (by simp [ha]))

theorem le_foldl_max {l : List Nat} {b : Nat} : b ≤ l.foldl max b := by
  induction l generalizing b with
  | nil => simp
  | cons x xs ih =>
    simp only [List.foldl_cons]
    exact le_trans (le_max_left b x) ih

theorem mem_le_foldl_max {l : List Nat} {b a : Nat} (ha : a ∈ l) :
    a ≤ l.foldl max b := by
  induction l generalizing b with
  | nil => cases ha
  | cons x xs ih =>
    simp only [List.foldl_cons]
    rcases List.mem_cons.1 ha with rfl | hxs
    · exact le_trans (le_max_right b a) le_foldl_max
    · exact ih hxs

theorem foldl_max_eq {l : List Nat} {n : Nat} (hmem : n ∈ l)
    (hub : ∀ a ∈ l, a ≤ n) : l.foldl max 0 = n :=
  le_antisymm (foldl_max_le (Nat.zero_le n) hub) (mem_le_foldl_max hmem)

/-- Sorting the thresholds with the requested opset appended splits into the
sorted thresholds not exceeding the opset, the opset itself, then the sorted
thresholds above it. -/
theorem implVersions_decomp (T : List Nat) (x : Nat) :
    implVersions T x =
      List.insertionSort (· ≤ ·) (T.filter (fun t => decide (t ≤ x))) ++
        x :: List.insertionSort (· ≤ ·) (T.filter (fun t => !decide (t ≤ x))) := by
  set L := T.filter (fun t => decide (t ≤ x)) with hL
  set H := T.filter (fun t => !decide (t ≤ x)) with hH
  have hLmem : ∀ a ∈ List.insertionSort (· ≤ ·) L, a ≤ x := by
    intro a ha
    have : a ∈ L := (List.perm_insertionSort _ _).mem_iff.1 ha
    have := List.of_mem_filter this
    simpa using this
  have hHmem : ∀ a ∈ List.insertionSort (· ≤ ·) H, x < a := by
    intro a ha
    have : a ∈ H := (List.perm_insertionSort _ _).mem_iff.1 ha
    have := List.of_mem_filter this
    simpa using this
  have hperm : List.Perm (implVersions T x)
      (List.insertionSort (· ≤ ·) L ++ x :: List.insertionSort (· ≤ ·) H) := by
    refine (List.perm_insertionSort _ _).trans ?_
    refine (((List.filter_append_perm (fun t => decide (t ≤ x)) T).symm).append_right
      [x]).trans ?_
    rw [List.append_assoc]
    refine (List.Perm.append_left L List.perm_append_comm).trans ?_
    exact ((List.perm_insertionSort _ L).symm).append
      (((List.perm_insertionSort _ H).symm).cons x)
  have hsorted : List.Sorted (· ≤ ·)
      (List.insertionSort (· ≤ ·) L ++ x :: List.insertionSort (· ≤ ·) H) := by
    rw [List.Sorted, List.pairwise_append]
    refine ⟨List.sorted_insertionSort _ _, ?_, ?_⟩
    · rw [List.pairwise_cons]
      exact ⟨fun a ha => le_of_lt (hHmem a ha), List.sorted_insertionSort _ _⟩
    · intro a ha b hb
      rcases List.mem_cons.1 hb with rfl | hb2
      · exact hLmem a ha
      · exact le_trans (hLmem a ha) (le_of_lt (hHmem b hb2))
  exact List.eq_of_perm_of_sorted hperm (List.sorted_insertionSort _ _) hsorted

theorem implVersions_getElem_len {T : List Nat} {x : Nat} :
    (implVersions T x)[(List.insertionSort (· ≤ ·)
      (T.filter (fun t => decide (t ≤ x)))).length]? = some x := by
  rw [implVersions_decomp]
  rw [List.getElem?_append_right (le_refl _)]
  rw [Nat.sub_self]
  exact List.getElem?_cons_zero

theorem implVersions_opset_index_le {T : List Nat} {x i : Nat}
    (h : (implVersions T x)[i]? = some x) :
    i ≤ (List.insertionSort (· ≤ ·) (T.filter (fun t => decide (t ≤ x)))).length := by
  set n := (List.insertionSort (· ≤ ·) (T.filter (fun t => decide (t ≤ x)))).length with hn
  by_contra hc
  push_neg at hc
  rw [implVersions_decomp, List.getElem?_append_right (le_of_lt hc)] at h
  have hpos : 1 ≤ i - n := by omega
  rcases Nat.exists_eq_add_of_le hpos with ⟨k, hk⟩
  rw [Nat.add_comm] at hk
  rw [hk] at h
  simp only [List.getElem?_cons_succ] at h
  have hx : x ∈ List.insertionSort (· ≤ ·) (T.filter (fun t => !decide (t ≤ x))) :=
    List.getElem?_mem h
  have hx2 : x ∈ T.filter (fun t => !decide (t ≤ x)) :=
    (List.perm_insertionSort _ _).mem_iff.1 hx
  have := List.of_mem_filter hx2
  simp at this

theorem pyListMax_opsetIndices {T : List Nat} {x : Nat} :
    pyListMax (opsetIndices (implVersions T x) x) =
      (List.insertionSort (· ≤ ·) (T.filter (fun t => decide (t ≤ x)))).length := by
  apply foldl_max_eq
  · exact mem_opsetIndices.2 implVersions_getElem_len
  · intro a ha
    exact implVersions_opset_index_le (mem_opsetIndices.1 ha)

/-- The resolver selects exactly the largest declared threshold that is at
or below the requested opset, whenever such a threshold exists. -/
theorem get_converter_eq {T : List Nat} {x m : Nat} (hm : m ∈ T) (hmx : m ≤ x)
    (hmax : ∀ t ∈ T, t ≤ x → t ≤ m) : get_converter T x = some m := by
  set sortL := List.insertionSort (· ≤ ·) (T.filter (fun t => decide (t ≤ x))) with hsL
  set n := sortL.length with hn
  have hmL : m ∈ T.filter (fun t => decide (t ≤ x)) :=
    List.mem_filter.2 ⟨hm, by simpa using hmx⟩
  have hmSL : m ∈ sortL := (List.perm_insertionSort _ _).mem_iff.2 hmL
  have hnpos : 0 < n := by
    rcases List.mem_iff_getElem.1 hmSL with ⟨j, hj, _⟩
    omega
  have hidx : n - 1 < sortL.length := by omega
  have hget : (implVersions T x)[n - 1]? = some (sortL[n - 1]) := by
    rw [implVersions_decomp, List.getElem?_append_left hidx]
    exact List.getElem?_eq_getElem hidx
  have hyval : sortL[n - 1] = m := by
    have hymem : sortL[n - 1] ∈ sortL := List.getElem_mem hidx
    have hyL : sortL[n - 1] ∈ T.filter (fun t => decide (t ≤ x)) :=
      (List.perm_insertionSort _ _).mem_iff.1 hymem
    have hyT : sortL[n - 1] ∈ T := List.mem_of_mem_filter hyL
    have hyx : sortL[n - 1] ≤ x := by simpa using List.of_mem_filter hyL
    have hy_le_m : sortL[n - 1] ≤ m := hmax _ hyT hyx
    rcases List.mem_iff_getElem.1 hmSL with ⟨j, hj, hjm⟩
    have hm_le_y : m ≤ sortL[n - 1] := by
      have hsorted : List.Sorted (· ≤ ·) sortL := List.sorted_insertionSort _ _
      have hle : (⟨j, hj⟩ : Fin sortL.length) ≤ ⟨n - 1, hidx⟩ := by
        simp only [Fin.mk_le_mk]
        omega
      have := hsorted.rel_get_of_le hle
      simpa [hjm] using this
    omega
  have hpy : pyGet (implVersions T x)
      ((pyListMax (opsetIndices (implVersions T x) x) : Int) - 1) = some m := by
    rw [pyListMax_opsetIndices]
    unfold pyGet
    have h0 : (0 : Int) ≤ (n : Int) - 1 := by omega
    rw [if_pos h0]
    have htoNat : ((n : Int) - 1).toNat = n - 1 := by omega
    rw [htoNat, hget, hyval]
  unfold get_converter
  rw [hpy]
  simp [hm]

/-- C1: For a converter family with declared version thresholds 1, 7, 13,
requested opsets 1, 6, 7, 12, 13, 14 resolve to the variants for thresholds
1, 1, 7, 7, 13, 13; and in general, whenever at least one declared threshold
is at or below the requested opset, `get_converter` selects the largest
declared threshold that is less than or equal to the requested opset. -/
theorem C1_resolver_selects_largest_threshold_le :
    (get_converter [1, 7, 13] 1 = some 1 ∧ get_converter [1, 7, 13] 6 = some 1 ∧
     get_converter [1, 7, 13] 7 = some 7 ∧ get_converter [1, 7, 13] 12 = some 7 ∧
     get_converter [1, 7, 13] 13 = some 13 ∧ get_converter [1, 7, 13] 14 = some 13) ∧
    ∀ (T : List Nat) (opset m : Nat), m ∈ T → m ≤ opset →
      (∀ t ∈ T, t ≤ opset → t ≤ m) → get_converter T opset = some m :=
  ⟨by decide, fun _ _ _ hm hmx hmax => get_converter_eq hm hmx hmax⟩

theorem C1_resolver_selects_largest_threshold_le_witness :
    get_converter [3, 9] 8 = some 3 :=
  C1_resolver_selects_largest_threshold_le.2 [3, 9] 8 3 (by decide) (by decide)
    (by decide)

/-- C2: the claim says that a requested opset strictly below every declared
threshold makes resolution fail with an unsupported-version error.  The code
instead computes index `-1`, which Python wraps around to the END of the
sorted version list, silently selecting the HIGHEST declared threshold: with
the single declared threshold 14 (the `Div` converter) and requested opset
13, `get_converter` returns the threshold-14 variant instead of failing, and
with thresholds 1, 7, 13 a requested opset 0 selects threshold 13. -/
theorem C2_resolver_wraps_to_highest_threshold :
    get_converter [14] 13 = some 14 ∧ get_converter [1, 7, 13] 0 = some 13 := by
  decide

/-! ### Dict and input-list lemmas -/

theorem dictGet_dictSet_self {β : Type} (m : List (String × β)) (k : String)
    (v : β) : dictGet (dictSet m k v) k = some v := by
  induction m with
  | nil => simp [dictGet, dictSet]
  | cons p rest ih =>
    by_cases h : p.1 = k
    · simp [dictGet, dictSet, h]
    · have hb : (p.1 == k) = false := by simpa using h
      simp [dictGet, dictSet, hb, ih]

theorem dictGet_dictSet_ne {β : Type} (m : List (String × β)) (k k' : String)
    (v : β) (hne : k' ≠ k) : dictGet (dictSet m k v) k' = dictGet m k' := by
  have hkk : (k == k') = false := by
    simpa using (Ne.symm hne)
  induction m with
  | nil => simp [dictGet, dictSet, hkk]
  | cons p rest ih =>
    by_cases h : p.1 = k
    · have hb : (p.1 == k) = true := by simpa using h
      have hb' : (p.1 == k') = false := by
        subst h
        simpa using (Ne.symm hne)
      simp [dictGet, dictSet, hb, hb', hkk]
    · have hb : (p.1 == k) = false := by simpa using h
      simp [dictGet, dictSet, hb, ih]

theorem dictContains_dictSet_self {β : Type} (m : List (String × β))
    (k : String) (v : β) : dictContains (dictSet m k v) k = true := by
  unfold dictContains
  rw [dictGet_dictSet_self]
  rfl

theorem onnx_input_getitem_oob {α : Type} (l : List (Option α)) (item : Int)
    (h : (l.length : Int) ≤ item) : onnx_input_getitem l item = .ok none := by
  unfold onnx_input_getitem
  rw [if_neg (by omega)]

theorem onnx_input_getitem_nonneg_ok {α : Type} (l : List (Option α))
    (i : Int) (h0 : 0 ≤ i) : ∃ r, onnx_input_getitem l i = .ok r := by
  unfold onnx_input_getitem
  by_cases hlt : i < (l.length : Int)
  · rw [if_pos hlt, if_pos h0]
    have hidx : i.toNat < l.length := by omega
    have hsome : ∃ v, l[i.toNat]? = some v := by
      rw [List.getElem?_eq_getElem hidx]
      exact ⟨_, rfl⟩
    rcases hsome with ⟨v, hv⟩
    rw [hv]
    exact ⟨v, rfl⟩
  · rw [if_neg hlt]
    exact ⟨none, rfl⟩

theorem buildInputs_blank {nodes : List (String × RValue)} :
    ∀ {names : List String} {res : List (Option RValue)} (idx : Nat),
      buildInputs nodes names = .ok res → names[idx]? = some "" →
      res[idx]? = some none := by
  intro names
  induction names with
  | nil =>
    intro res idx h hname
    simp at hname
  | cons i rest ih =>
    intro res idx h hname
    by_cases hi : i = ""
    · subst hi
      rw [buildInputs, if_neg (by simp)] at h
      cases hrest : buildInputs nodes rest with
      | error e => rw [hrest] at h; exact absurd h (by simp)
      | ok tail =>
        rw [hrest] at h
        have hres : res = none :: tail := by
          cases h
          rfl
        subst hres
        cases idx with
        | zero => simp
        | succ n =>
          simp only [List.getElem?_cons_succ] at hname ⊢
          exact ih n hrest hname
    · rw [buildInputs, if_pos (by simpa using hi)] at h
      cases hget : dictGet nodes i with
      | none => rw [hget] at h; exact absurd h (by simp)
      | some v =>
        rw [hget] at h
        cases hrest : buildInputs nodes rest with
        | error e => rw [hrest] at h; exact absurd h (by simp)
        | ok tail =>
          rw [hrest] at h
          have hres : res = some v :: tail := by
            cases h
            rfl
          subst hres
          cases idx with
          | zero =>
            simp only [List.getElem?_cons_zero, Option.some_inj] at hname
            exact absurd hname hi
          | succ n =>
            simp only [List.getElem?_cons_succ] at hname ⊢
            exact ih n hrest hname

theorem buildInputs_ignores_blank_binding (nodes : List (String × RValue))
    (v : RValue) :
    ∀ names, buildInputs (dictSet nodes "" v) names = buildInputs nodes names := by
  intro names
  induction names with
  | nil => rfl
  | cons i rest ih =>
    by_cases hi : i = ""
    · subst hi
      rw [buildInputs, buildInputs, if_neg (by simp), if_neg (by simp), ih]
    · rw [buildInputs, buildInputs, if_pos (by simpa using hi),
        if_pos (by simpa using hi), dictGet_dictSet_ne nodes "" i v hi, ih]

theorem exceptBind_ok {ε α β : Type} (x : α) (f : α → Except ε β) :
    (Except.ok x >>= f) = f x := rfl

theorem exceptPure_eq {ε α : Type} (x : α) :
    (pure x : Except ε α) = Except.ok x := rfl

/-! ## Claim theorems: converters and attribute parsing -/

/-- C4 counterexample: a `Reshape` node whose shape input is a free variable
(not a `relax.Constant`) does NOT make the import fail — the converter
succeeds and returns the data input unchanged. -/
theorem C4_reshape_dynamic_shape_succeeds :
    Reshape_impl_v13
      [some (.var "x" [2, 3] "float32"), some (.var "s" [2] "int64")] [] =
      .ok (some (.var "x" [2, 3] "float32")) := rfl

/-- C4 (amended): `Tile` and `Slice` abort with `ValueError` when handed a
non-constant parameter in a position that requires a compile-time constant,
but `Reshape` with a non-constant shape input does not abort: it silently
returns its data input unchanged. -/
theorem C4_dynamic_constant_parameters :
    (∀ (inputs : List (Option RValue)) (attr : AttrMap) (r : Option RValue),
      onnx_input_getitem inputs 1 = .ok r → isConstV r = false →
      Tile_impl_v13 inputs attr =
        .error (.valueError "Dynamic reps for Tile are supported yet.")) ∧
    (∀ (inputs : List (Option RValue)) (attr : AttrMap) (s : Option RValue),
      onnx_input_getitem inputs 1 = .ok s → isConstOrNoneV s = false →
      Slice_impl_v13 inputs attr =
        .error (.valueError "Only constant Slice parameters are currently supported.")) ∧
    (∀ (inputs : List (Option RValue)) (attr : AttrMap) (d s : Option RValue),
      onnx_input_getitem inputs 0 = .ok d → onnx_input_getitem inputs 1 = .ok s →
      isConstV s = false → Reshape_impl_v13 inputs attr = .ok d) := by
  refine ⟨?_, ?_, ?_⟩
  · intro inputs attr r h hr
    simp only [Tile_impl_v13]
    rw [h, exceptBind_ok]
    cases r with
    | none => rfl
    | some v =>
      cases v with
      | const dt dims dat => simp [isConstV] at hr
      | var a b c => rfl
      | tupleV items => rfl
      | emitted a b => rfl
  · intro inputs attr s h hs
    obtain ⟨d0, h0⟩ := onnx_input_getitem_nonneg_ok inputs 0 (by norm_num)
    obtain ⟨d2, h2⟩ := onnx_input_getitem_nonneg_ok inputs 2 (by norm_num)
    obtain ⟨d3, h3⟩ := onnx_input_getitem_nonneg_ok inputs 3 (by norm_num)
    obtain ⟨d4, h4⟩ := onnx_input_getitem_nonneg_ok inputs 4 (by norm_num)
    simp only [Slice_impl_v13]
    rw [h0, exceptBind_ok, h, exceptBind_ok, h2, exceptBind_ok, h3,
      exceptBind_ok, h4, exceptBind_ok]
    have hall : ([s, d2, d3, d4].all isConstOrNoneV) = false := by
      simp [List.all, hs]
    rw [if_neg (by simp [hall])]
    rfl
  · intro inputs attr d s h0 h1 hs
    simp only [Reshape_impl_v13]
    rw [h0, exceptBind_ok, h1, exceptBind_ok]
    cases s with
    | none => rfl
    | some v =>
      cases v with
      | const dt dims dat => simp [isConstV] at hs
      | var a b c => rfl
      | tupleV items => rfl
      | emitted a b => rfl

theorem C4_dynamic_constant_parameters_witness :
    Tile_impl_v13 [some (.var "d" [2] "float32"), some (.var "r" [1] "int64")] [] =
      .error (.valueError "Dynamic reps for Tile are supported yet.") ∧
    Slice_impl_v13
      [some (.var "d" [4] "float32"), some (.var "st" [1] "int64"),
       some (.const "int64" [1] [3]), none, none] [] =
      .error (.valueError "Only constant Slice parameters are currently supported.") ∧
    Reshape_impl_v13 [some (.emitted "topi.tile" [[2]]), some (.var "s" [1] "int64")] [] =
      .ok (some (.emitted "topi.tile" [[2]])) :=
  ⟨C4_dynamic_constant_parameters.1 _ [] (some (.var "r" [1] "int64")) rfl rfl,
   C4_dynamic_constant_parameters.2.1 _ [] (some (.var "st" [1] "int64")) rfl rfl,
   C4_dynamic_constant_parameters.2.2 _ [] (some (.emitted "topi.tile" [[2]]))
     (some (.var "s" [1] "int64")) rfl rfl rfl⟩

/-- C7 counterexample: an attribute whose populated value sits in the
SINGLE-graph slot `g` is accepted into the attribute map (as a subgraph
value) without any error, contradicting the claim that attribute parsing
rejects subgraph values in either slot. -/
theorem C7_single_graph_attribute_accepted :
    parseAttr [⟨"body", none, none, none, some ⟨0⟩, [], [], [], none, [], []⟩] =
      .ok [("body", .attrG ⟨0⟩)] := rfl

/-- C7 (amended): only the REPEATED-graphs slot is rejected (with
`NotImplementedError`); an attribute populated in the single-graph slot `g`
is copied into the attribute map as a subgraph value. -/
theorem C7_graph_attributes :
    (∀ (m : AttrMap) (nm : String) (gs : List SubgraphStub), gs ≠ [] →
      parseAttrOne m ⟨nm, none, none, none, none, [], [], [], none, [], gs⟩ =
        .error (.notImplementedError "Field graphs is not supported in relax.")) ∧
    (∀ (m : AttrMap) (nm : String) (sg : SubgraphStub),
      parseAttrOne m ⟨nm, none, none, none, some sg, [], [], [], none, [], []⟩ =
        .ok (dictSet m nm (.attrG sg))) := by
  constructor
  · intro m nm gs hgs
    cases gs with
    | nil => exact absurd rfl hgs
    | cons gfst grest => rfl
  · intro m nm sg
    simp only [parseAttrOne]
    simp [dictContains_dictSet_self]
    rfl

theorem C7_graph_attributes_witness :
    parseAttrOne [] ⟨"b", none, none, none, none, [], [], [], none, [], [⟨1⟩]⟩ =
      .error (.notImplementedError "Field graphs is not supported in relax.") ∧
    parseAttrOne [] ⟨"c", none, none, none, some ⟨2⟩, [], [], [], none, [], []⟩ =
      .ok (dictSet [] "c" (.attrG ⟨2⟩)) :=
  ⟨C7_graph_attributes.1 [] "b" [⟨1⟩] (by simp),
   C7_graph_attributes.2 [] "c" ⟨2⟩⟩

/-- C10: a `Constant` node whose `value` attribute carries raw bytes (the
string slot `s`) is converted WITHOUT error into the zero-valued int64
constant array `[0]`, and a `Constant` node with no `value` attribute at
all is rejected with `ValueError`. -/
theorem C10_constant_bytes_become_zero :
    (∀ (attr : AttrMap) (b : List Nat), dictGet attr "value" = some (.attrS b) →
      Constant_impl_v13 attr = .ok (.const "int64" [1] [0])) ∧
    (∀ attr : AttrMap, dictGet attr "value" = none →
      Constant_impl_v13 attr = .error (.valueError "no value in Constant")) := by
  constructor
  · intro attr b h
    unfold Constant_impl_v13
    rw [h]
  · intro attr h
    unfold Constant_impl_v13
    rw [h]

theorem C10_constant_bytes_become_zero_witness :
    Constant_impl_v13 [("value", .attrS [104, 105])] = .ok (.const "int64" [1] [0]) ∧
    Constant_impl_v13 [] = .error (.valueError "no value in Constant") :=
  ⟨C10_constant_bytes_become_zero.1 [("value", .attrS [104, 105])] [104, 105] rfl,
   C10_constant_bytes_become_zero.2 [] rfl⟩

/-! ## Claim theorems: symbol table and node inputs -/

/-- C6 counterexample: a graph whose `Identity` node declares the output
name `x` that is already bound to an initializer constant imports WITHOUT
any duplicate-definition error, and the final symbol table holds the node
result (the variable `y` routed through `Identity`) in place of the
initializer constant — the earlier binding is overwritten. -/
theorem C6_duplicate_name_overwrites :
    fromOnnxImporter identityOracle ⟨[], .str "float32", false⟩
      ⟨[⟨"n0", "Identity", ["y"], ["x"], []⟩],
       [⟨"y", [1], "float32"⟩], [⟨"x", [1], "float32"⟩],
       [⟨"x", "float32", [1], [7]⟩]⟩ 13 =
      .ok (.module ⟨[.var "y" [1] "float32"], .var "y" [1] "float32"⟩,
        ⟨[("x", .var "y" [1] "float32"), ("y", .var "y" [1] "float32")],
         [("y", .var "y" [1] "float32")], 1, ["y"], [], ["Identity"]⟩) := rfl

/-- C6 (amended): the symbol-table define operation is a plain Python dict
assignment: writing an already-bound name silently replaces the earlier
binding (last write wins) and leaves every other name unchanged; no
duplicate-definition error exists. -/
theorem C6_define_overwrites :
    (∀ (m : List (String × RValue)) (k : String) (v : RValue),
      dictGet (dictSet m k v) k = some v) ∧
    (∀ (m : List (String × RValue)) (k k' : String) (v : RValue), k' ≠ k →
      dictGet (dictSet m k v) k' = dictGet m k') :=
  ⟨fun m k v => dictGet_dictSet_self m k v,
   fun m k k' v h => dictGet_dictSet_ne m k k' v h⟩

theorem C6_define_overwrites_witness :
    dictGet (dictSet [("x", RValue.const "float32" [1] [7])] "x"
      (.var "y" [1] "float32")) "x" = some (.var "y" [1] "float32") ∧
    dictGet (dictSet [("x", RValue.const "float32" [1] [7])] "w"
      (.var "y" [1] "float32")) "x" = some (.const "float32" [1] [7]) :=
  ⟨C6_define_overwrites.1 [("x", RValue.const "float32" [1] [7])] "x" _,
   C6_define_overwrites.2 [("x", RValue.const "float32" [1] [7])] "w" "x" _
     (by simp)⟩

/-- C9: a node-input position holding a blank name is propagated as an
absent value (`None`) with no symbol-table lookup — the result of building
the input list does not depend on any binding of the empty name — and an
integer access at or beyond the input-list length yields `None` instead of
an error. -/
theorem C9_blank_and_out_of_range_inputs_absent :
    (∀ (l : List (Option RValue)) (item : Int), (l.length : Int) ≤ item →
      onnx_input_getitem l item = .ok none) ∧
    (∀ (nodes : List (String × RValue)) (names : List String)
       (res : List (Option RValue)) (idx : Nat),
      buildInputs nodes names = .ok res → names[idx]? = some "" →
      res[idx]? = some none) ∧
    (∀ (nodes : List (String × RValue)) (v : RValue) (names : List String),
      buildInputs (dictSet nodes "" v) names = buildInputs nodes names) :=
  ⟨fun l item h => onnx_input_getitem_oob l item h,
   fun _ _ _ idx h hn => buildInputs_blank idx h hn,
   fun nodes v names => buildInputs_ignores_blank_binding nodes v names⟩

theorem C9_blank_and_out_of_range_inputs_absent_witness :
    onnx_input_getitem ([some (.const "float32" [1] [7])] : List (Option RValue)) 5 =
      .ok none ∧
    (buildInputs [("w", RValue.const "float32" [1] [7])] ["", "w"] =
        .ok [none, some (.const "float32" [1] [7])] ∧
      [none, some (RValue.const "float32" [1] [7])][0]? = some none) ∧
    buildInputs (dictSet [("w", RValue.const "float32" [1] [7])] ""
        (.var "z" [1] "float32")) ["", "w"] =
      buildInputs [("w", RValue.const "float32" [1] [7])] ["", "w"] :=
  ⟨C9_blank_and_out_of_range_inputs_absent.1 _ 5 (by norm_num),
   ⟨rfl, C9_blank_and_out_of_range_inputs_absent.2.1
      [("w", RValue.const "float32" [1] [7])] ["", "w"]
      [none, some (.const "float32" [1] [7])] 0 rfl rfl⟩,
   C9_blank_and_out_of_range_inputs_absent.2.2
     [("w", RValue.const "float32" [1] [7])] (.var "z" [1] "float32") ["", "w"]⟩

/-! ### Pipeline lemmas -/

theorem initLoop_ok_trace :
    ∀ (ts : List TensorP) (st st' : ImpState),
      initLoop ts st = .ok st' → st'.trace = st.trace := by
  intro ts
  induction ts with
  | nil =>
    intro st st' h
    cases h
    rfl
  | cons t rest ih =>
    intro st st' h
    rw [initLoop] at h
    by_cases hc : pyStrip t.name = ""
    · rw [if_pos hc] at h
      exact absurd h (by simp)
    · rw [if_neg hc] at h
      have h2 := ih _ _ h
      exact h2

theorem initLoop_error_trace :
    ∀ (ts : List TensorP) (st : ImpState) (e : ImpError × ImpState),
      initLoop ts st = .error e → e.2.trace = st.trace := by
  intro ts
  induction ts with
  | nil =>
    intro st e h
    exact absurd h (by simp [initLoop])
  | cons t rest ih =>
    intro st e h
    rw [initLoop] at h
    by_cases hc : pyStrip t.name = ""
    · rw [if_pos hc] at h
      cases h
      rfl
    · rw [if_neg hc] at h
      have h2 := ih _ _ h
      exact h2

theorem inputLoop_trace (cfg : ImporterCfg) :
    ∀ (vis : List ValueInfo) (st : ImpState),
      (inputLoop cfg vis st).trace = st.trace := by
  intro vis
  induction vis with
  | nil => intro st; rfl
  | cons vi rest ih =>
    intro st
    rw [inputLoop, ih]
    by_cases hc : dictContains st.nodes vi.name = true
    · simp [hc]
    · simp [hc]

theorem preNodePhases_ok_trace (cfg : ImporterCfg) (g : GraphProto)
    (st1 : ImpState) (h : preNodePhases cfg g = .ok st1) : st1.trace = [] := by
  unfold preNodePhases at h
  cases hinit : initLoop g.initTensors initialState with
  | error e =>
    rw [hinit] at h
    exact absurd h (by simp)
  | ok stA =>
    rw [hinit] at h
    cases h
    rw [inputLoop_trace]
    exact initLoop_ok_trace _ _ _ hinit

theorem preNodePhases_error_trace (cfg : ImporterCfg) (g : GraphProto)
    (e : ImpError × ImpState) (h : preNodePhases cfg g = .error e) :
    e.2.trace = [] := by
  unfold preNodePhases at h
  cases hinit : initLoop g.initTensors initialState with
  | error e2 =>
    rw [hinit] at h
    cases h
    exact initLoop_error_trace _ _ _ hinit
  | ok stA =>
    rw [hinit] at h
    exact absurd h (by simp)

theorem unsupStep_ne_nil (acc : List String) (n : NodeProto) (h : acc ≠ []) :
    unsupStep acc n ≠ [] := by
  unfold unsupStep
  by_cases hc : n.op_type ∉ convertMapKeys ∧ n.op_type ≠ "Constant" ∧
      n.op_type ∉ acc
  · rw [if_pos hc]
    simp
  · rw [if_neg hc]
    exact h

theorem foldl_unsupStep_ne_nil :
    ∀ (nodes : List NodeProto) (acc : List String), acc ≠ [] →
      nodes.foldl unsupStep acc ≠ [] := by
  intro nodes
  induction nodes with
  | nil => intro acc h; exact h
  | cons m rest ih =>
    intro acc h
    simp only [List.foldl_cons]
    exact ih _ (unsupStep_ne_nil acc m h)

theorem foldl_unsupStep_mem_ne_nil :
    ∀ (nodes : List NodeProto) (acc : List String) (n : NodeProto),
      n ∈ nodes → n.op_type ∉ convertMapKeys → n.op_type ≠ "Constant" →
      nodes.foldl unsupStep acc ≠ [] := by
  intro nodes
  induction nodes with
  | nil =>
    intro acc n h
    cases h
  | cons m rest ih =>
    intro acc n hmem hop hconst
    rcases List.mem_cons.1 hmem with rfl | hrest
    · simp only [List.foldl_cons]
      apply foldl_unsupStep_ne_nil
      unfold unsupStep
      by_cases hin : n.op_type ∈ acc
      · rw [if_neg (by intro hand; exact hand.2.2 hin)]
        intro heq
        rw [heq] at hin
        cases hin
      · rw [if_pos ⟨hop, hconst, hin⟩]
        simp
    · simp only [List.foldl_cons]
      exact ih _ n hrest hop hconst

theorem fromOnnxImporter_module (oracle : ConvertOracle) (cfg : ImporterCfg)
    (g : GraphProto) (opset : Nat) (rr : PyRet × ImpState)
    (h : fromOnnxImporter oracle cfg g opset = .ok rr) :
    retIsPair rr.1 = false := by
  unfold fromOnnxImporter at h
  split at h
  · exact absurd h (by simp)
  · split at h
    · exact absurd h (by simp)
    · split at h
      · exact absurd h (by simp)
      · unfold finalize at h
        split at h
        · exact absurd h (by simp)
        · cases h
          rfl

/-! ## Claim theorems: pipeline -/

/-- C3: a graph containing a node whose operator name is outside the
converter catalog always makes the import fail before any node conversion
runs (the conversion trace of the error state is empty), and — whenever the
initializer/input phases themselves succeed — the failure is precisely the
unsupported-operator error raised by the pre-flight check, carrying the
pre-node state unchanged (so no node output has been bound). -/
theorem C3_unsupported_op_rejected_before_conversion :
    ∀ (oracle : ConvertOracle) (cfg : ImporterCfg) (g : GraphProto)
      (opset : Nat),
      (∃ n ∈ g.node, n.op_type ∉ convertMapKeys) →
      (∃ e st, fromOnnxImporter oracle cfg g opset = .error (e, st) ∧
        st.trace = []) ∧
      (∀ st1, preNodePhases cfg g = .ok st1 →
        fromOnnxImporter oracle cfg g opset =
          .error (.opNotImplemented (unsupportedMsg g), st1) ∧
        st1.trace = []) := by
  intro oracle cfg g opset hex
  rcases hex with ⟨n, hn, hop⟩
  have hconst : n.op_type ≠ "Constant" := by
    intro h
    rw [h] at hop
    exact hop (by decide)
  have hunsup : unsupportedOps g ≠ [] :=
    foldl_unsupStep_mem_ne_nil g.node [] n hn hop hconst
  have hcheck : ∀ st, checkForUnsupportedOps g st =
      .error (.opNotImplemented (unsupportedMsg g), st) := by
    intro st
    unfold checkForUnsupportedOps
    rw [if_neg hunsup]
  constructor
  · cases hpre : preNodePhases cfg g with
    | error e =>
      refine ⟨e.1, e.2, ?_, preNodePhases_error_trace cfg g e hpre⟩
      simp only [fromOnnxImporter, hpre]
    | ok st1 =>
      refine ⟨.opNotImplemented (unsupportedMsg g), st1, ?_,
        preNodePhases_ok_trace cfg g st1 hpre⟩
      simp only [fromOnnxImporter, hpre, hcheck st1]
  · intro st1 hpre
    refine ⟨?_, preNodePhases_ok_trace cfg g st1 hpre⟩
    simp only [fromOnnxImporter, hpre, hcheck st1]

theorem C3_unsupported_op_rejected_before_conversion_witness :
    (∃ n ∈ (⟨[⟨"n", "FancyOp", [], ["o"], []⟩], [], [], []⟩ : GraphProto).node,
      n.op_type ∉ convertMapKeys) ∧
    ((∃ e st, fromOnnxImporter identityOracle ⟨[], .str "float32", true⟩
        ⟨[⟨"n", "FancyOp", [], ["o"], []⟩], [], [], []⟩ 13 = .error (e, st) ∧
      st.trace = []) ∧
     (∀ st1, preNodePhases ⟨[], .str "float32", true⟩
        ⟨[⟨"n", "FancyOp", [], ["o"], []⟩], [], [], []⟩ = .ok st1 →
       fromOnnxImporter identityOracle ⟨[], .str "float32", true⟩
          ⟨[⟨"n", "FancyOp", [], ["o"], []⟩], [], [], []⟩ 13 =
         .error (.opNotImplemented (unsupportedMsg
           ⟨[⟨"n", "FancyOp", [], ["o"], []⟩], [], [], []⟩), st1) ∧
       st1.trace = [])) :=
  ⟨by decide,
   C3_unsupported_op_rejected_before_conversion identityOracle
     ⟨[], .str "float32", true⟩ ⟨[⟨"n", "FancyOp", [], ["o"], []⟩], [], [], []⟩
     13 (by decide)⟩

/-- C5: the claim says a successful import returns a pair of the program
and a parameter-name-to-constant mapping.  The implementation returns
`self.bb.get()` alone: every successful run of the entry point yields the
bare module value, never the promised `(mod, params)` pair — although the
signature annotates `Tuple[IRModule, Dict]` and the docstring promises
`mod, params`. -/
theorem C5_entry_point_returns_module_only :
    ∀ (oracle : ConvertOracle) (model : ModelProto)
      (shape : List (String × List Nat)) (dtype : DtypeSpec)
      (opsetArg : Option Nat) (san : Bool) (r : PyRet × ImpState),
      from_onnx_top oracle model shape dtype opsetArg san = .ok r →
      retIsPair r.1 = false := by
  intro oracle model shape dtype opsetArg san r h
  unfold from_onnx_top at h
  by_cases hv : model.ir_version < 3
  · rw [if_pos hv] at h
    exact absurd h (by simp)
  · rw [if_neg hv] at h
    dsimp only at h
    split at h
    · exact absurd h (by simp)
    · rename_i rr him
      cases h
      exact fromOnnxImporter_module oracle _ model.graph _ _ him

theorem C5_entry_point_returns_module_only_witness :
    retIsPair (PyRet.module ⟨[RValue.var "a" [1] "float32"],
      RValue.var "a" [1] "float32"⟩) = false :=
  C5_entry_point_returns_module_only identityOracle
    ⟨7, [⟨"", 13⟩], ⟨[], [⟨"a", [1], "float32"⟩], [⟨"a", [1], "float32"⟩], []⟩⟩
    [] (.str "float32") none false
    (.module ⟨[.var "a" [1] "float32"], .var "a" [1] "float32"⟩,
     ⟨[("a", .var "a" [1] "float32")], [("a", .var "a" [1] "float32")], 1,
      ["a"], [], []⟩)
    rfl

/-- C8 counterexample: an import whose graph declares TWO inputs named with
the empty string sanitizes only the FIRST of them: both occurrences are
deduplicated by name in `_parse_graph_input` and bound to the single
variable `empty_0`; no `empty_1` variable is ever created (the supply
counter for the `empty_` prefix ends at 1, not 2). -/
theorem C8_second_empty_input_not_renamed :
    inputLoop ⟨[], .str "float32", true⟩
      [⟨"", [1], "float32"⟩, ⟨"", [1], "float32"⟩] initialState =
      ⟨[("", .var "empty_0" [1] "float32")],
       [("", .var "empty_0" [1] "float32")], 1, [""], [("empty_", 1)], []⟩ :=
  rfl

/-- C8 (amended): the sanitizer itself, called twice on the empty name,
yields `empty_0` then `empty_1`; but within one import a second graph input
named `""` is deduplicated by name before sanitization, so it is bound to
the same `empty_0` variable and `empty_1` never appears. -/
theorem C8_empty_name_sanitization :
    (sanitizeName [] "" = ("empty_0", [("empty_", 1)]) ∧
     sanitizeName [("empty_", 1)] "" = ("empty_1", [("empty_", 2)])) ∧
    (dictGet (inputLoop ⟨[], .str "float32", true⟩
        [⟨"", [1], "float32"⟩, ⟨"", [1], "float32"⟩] initialState).nodes "" =
      some (.var "empty_0" [1] "float32") ∧
     (inputLoop ⟨[], .str "float32", true⟩
        [⟨"", [1], "float32"⟩, ⟨"", [1], "float32"⟩] initialState).supply =
      [("empty_", 1)]) :=
  ⟨⟨rfl, rfl⟩, rfl, rfl⟩

end OnnxFrontend
